import Mathlib

/-!
Verification of the google-web-search-mcp server core against its source.

The development shallowly embeds the TypeScript source:
* `src/index.ts` — the citation merger (`handleWebSearch`, lines 195-231),
  lazy client initialization (`initializeGeminiClient`) and the
  `handleWebSearch` control flow;
* `src/oauth.ts` — the loopback OAuth callback handler (`authWithWeb`),
  the credential cache (`loadCachedCredentials` / `cacheCredentials`) and
  the project resolver (`setupUserProject`).

JavaScript-specific conventions kept by the embedding:
* optional values (`undefined` / missing fields) are `Option`;
* JavaScript truthiness on optional strings (`undefined` and the empty
  string are falsy) is `truthyOpt`;
* `a || b` on strings is `jsOr`;
* exceptions are `Except String`;
* external I/O (HTTP responses, token exchange outcomes, file system
  states) enters as explicit oracle arguments, so every network-touching
  call site of the source is visible as data.
-/

/-- JavaScript `String.prototype.trim()`: strip leading and trailing
whitespace (character-list level, fully executable). -/
def jsTrim (s : String) : String :=
  String.mk (((s.data.dropWhile Char.isWhitespace).reverse.dropWhile
    Char.isWhitespace).reverse)

/-- JavaScript truthiness of a `string | undefined` value: `undefined` and
the empty string are falsy. -/
def truthyOpt : Option String → Bool
  | some s => s ≠ ""
  | none => false

/-- JavaScript `o || d` for an optional string `o` and a default `d`:
returns `d` when `o` is `undefined` or empty. -/
def jsOr (o : Option String) (d : String) : String :=
  match o with
  | some s => if s = "" then d else s
  | none => d

/-! ## Data model of the grounded search response (src/index.ts, lines 20-39) -/

/-- `GroundingChunkWeb` of src/index.ts: `{ uri?: string; title?: string }`. -/
structure GroundingChunkWeb where
  uri : Option String
  title : Option String
deriving Repr, DecidableEq

/-- `GroundingChunkItem` of src/index.ts: `{ web?: GroundingChunkWeb }`. -/
structure GroundingChunkItem where
  web : Option GroundingChunkWeb
deriving Repr, DecidableEq

/-- `GroundingSupportSegment` of src/index.ts:
`{ startIndex: number; endIndex: number; text?: string }`. -/
structure GroundingSupportSegment where
  startIndex : Nat
  endIndex : Nat
  text : Option String
deriving Repr, DecidableEq

/-- `GroundingSupportItem` of src/index.ts:
`{ segment?; groundingChunkIndices?; confidenceScores? }`
(confidence scores are never read by the merger and are omitted). -/
structure GroundingSupportItem where
  segment : Option GroundingSupportSegment
  groundingChunkIndices : Option (List Nat)
deriving Repr, DecidableEq

/-- The transient `{ index, marker }` pairs built by the merger
(src/index.ts, line 206). -/
structure Insertion where
  index : Nat
  marker : String
deriving Repr, DecidableEq

/-! ## The citation merger (src/index.ts, lines 195-231)

The source splits the response text into an array of one-character strings
(`modifiedResponseText.split('')`), splices each marker string in as a
single array element (`responseChars.splice(insertion.index, 0, marker)`)
and finally joins (`responseChars.join('')`).  The buffer is therefore a
`List String`; `Array.prototype.splice` clamps an out-of-range index to
the array length, which `List.take` / `List.drop` do natively. -/

/-- `responseChars.splice(i, 0, m)`: insert `m` as one element at index
`i`, clamped to the buffer length exactly as in JavaScript. -/
def spliceAt (i : Nat) (m : String) (buf : List String) : List String :=
  buf.take i ++ m :: buf.drop i

/-- `insertions.forEach((insertion) => responseChars.splice(...))`
(src/index.ts, lines 222-224): left fold of `spliceAt`. -/
def applyInsertions (ins : List Insertion) (buf : List String) : List String :=
  ins.foldl (fun b x => spliceAt x.index x.marker b) buf

/-- Stable insertion step of the descending sort: place `x` before the
first element whose index is not above `x`'s.  Models one step of
`insertions.sort((a, b) => b.index - a.index)` — the ECMAScript sort is
stable, so ties keep discovery order. -/
def insertDesc (x : Insertion) : List Insertion → List Insertion
  | [] => [x]
  | y :: ys => if y.index ≤ x.index then x :: y :: ys else y :: insertDesc x ys

/-- `insertions.sort((a, b) => b.index - a.index)` (src/index.ts, line
219): stable sort by index, descending. -/
def sortDesc : List Insertion → List Insertion
  | [] => []
  | x :: xs => insertDesc x (sortDesc xs)

/-- `responseChars.join('')`: fold of string append, as in the source. -/
def joinAll (l : List String) : String :=
  l.foldl (· ++ ·) ""

/-- The marker string of one support: each referenced chunk index `i`
becomes the literal `[i+1]`, concatenated (src/index.ts, lines 209-211). -/
def markerOf (idxs : List Nat) : String :=
  joinAll (idxs.map (fun i => "[" ++ toString (i + 1) ++ "]"))

/-- `insertions` collection (src/index.ts, lines 206-217): one insertion
at `segment.endIndex` for every support whose `segment` and
`groundingChunkIndices` are both present (any present array is truthy in
JavaScript, including an empty one). -/
def buildInsertions (supports : List GroundingSupportItem) : List Insertion :=
  supports.filterMap fun s =>
    match s.segment, s.groundingChunkIndices with
    | some seg, some idxs => some ⟨seg.endIndex, markerOf idxs⟩
    | _, _ => none

/-- `sourceListFormatted` (src/index.ts, lines 199-203): the 1-indexed
source lines, with the JavaScript `||` fallbacks for title and URI. -/
def fmtSources (sources : List GroundingChunkItem) : List String :=
  sources.enum.map fun p =>
    "[" ++ toString (p.1 + 1) ++ "] " ++ jsOr (p.2.web.bind (·.title)) "Untitled"
      ++ " (" ++ jsOr (p.2.web.bind (·.uri)) "No URI" ++ ")"

/-- The citation merger: src/index.ts lines 195-231 verbatim, producing
`modifiedResponseText` from the raw response text, the optional
`groundingChunks` and the optional `groundingSupports`. -/
def mergeCitations (text : String) (sources : Option (List GroundingChunkItem))
    (supports : Option (List GroundingSupportItem)) : String :=
  match sources with
  | none => text
  | some srcs =>
    if srcs.length > 0 then
      let sourceList := fmtSources srcs
      let text1 :=
        match supports with
        | none => text
        | some sup =>
          if sup.length > 0 then
            joinAll (applyInsertions (sortDesc (buildInsertions sup))
              (text.data.map String.singleton))
          else text
      if sourceList.length > 0 then
        text1 ++ "\n\nSources:\n" ++ String.intercalate "\n" sourceList
      else text1
    else text

example :
    mergeCitations "Paris is the capital."
      (some [⟨some ⟨some "https://wiki.example", some "Wiki"⟩⟩])
      (some [⟨some ⟨0, 21, none⟩, some [0]⟩]) =
    "Paris is the capital.[1]\n\nSources:\n[1] Wiki (https://wiki.example)" := by
  decide

example : mergeCitations "abc" (some []) (some [⟨some ⟨0, 1, none⟩, some [0]⟩]) = "abc" := by
  decide

/-! ## String append and join lemmas -/

theorem str_append_assoc (a b c : String) : a ++ b ++ c = a ++ (b ++ c) := by
  apply String.ext
  simp [String.data_append]

theorem str_append_empty (a : String) : a ++ "" = a := by
  apply String.ext
  simp [String.data_append]

theorem str_empty_append (a : String) : "" ++ a = a := by
  apply String.ext
  simp [String.data_append]

theorem joinAll_acc (l : List String) (a : String) :
    l.foldl (· ++ ·) a = a ++ joinAll l := by
  induction l generalizing a with
  | nil => exact (str_append_empty a).symm
  | cons x xs ih =>
    show xs.foldl (· ++ ·) (a ++ x) = a ++ joinAll (x :: xs)
    rw [ih (a ++ x), str_append_assoc]
    unfold joinAll
    rw [List.foldl_cons, ih ("" ++ x), str_empty_append]
    rfl

theorem joinAll_cons (x : String) (xs : List String) :
    joinAll (x :: xs) = x ++ joinAll xs := by
  unfold joinAll
  rw [List.foldl_cons, joinAll_acc, str_empty_append]
  rfl

theorem joinAll_singleton (m : String) : joinAll [m] = m := by
  rw [joinAll_cons]
  exact str_append_empty m

theorem joinAll_append (l₁ l₂ : List String) :
    joinAll (l₁ ++ l₂) = joinAll l₁ ++ joinAll l₂ := by
  induction l₁ with
  | nil => exact (str_empty_append _).symm
  | cons x xs ih => rw [List.cons_append, joinAll_cons, joinAll_cons, ih, str_append_assoc]

theorem joinAll_singletons (l : List Char) :
    joinAll (l.map String.singleton) = String.mk l := by
  induction l with
  | nil => rfl
  | cons c cs ih =>
    rw [List.map_cons, joinAll_cons, ih]
    apply String.ext
    simp [String.data_append, String.singleton]

theorem str_mk_data (s : String) : String.mk s.data = s := rfl

/-! ## Descending-order insertion semantics (claim C4 machinery)

`placeRef ins p buf` is the specification-level placement: walking the
pre-insertion buffer from position `p`, it emits, before each original
element at absolute position `q`, the markers of all insertions recorded
at index `q` (latest-discovered first), so every marker sits exactly
after its recorded number of original elements. -/

/-- Shift every insertion index down by one (used to re-express a buffer
step in the inductive proof). -/
def decrAll (ins : List Insertion) : List Insertion :=
  ins.map fun x => ⟨x.index - 1, x.marker⟩

/-- Markers recorded at index `p`, in reverse discovery order. -/
def markersAtRev (ins : List Insertion) (p : Nat) : List String :=
  ((ins.filter fun x => x.index == p).map fun x => x.marker).reverse

/-- Specification-level placement of insertions: each marker lands exactly
at its recorded offset of the pre-insertion buffer. -/
def placeRef (ins : List Insertion) : Nat → List String → List String
  | p, [] => markersAtRev ins p
  | p, c :: rest => markersAtRev ins p ++ c :: placeRef ins (p + 1) rest

theorem applyInsertions_cons (x : Insertion) (xs : List Insertion) (b : List String) :
    applyInsertions (x :: xs) b = applyInsertions xs (spliceAt x.index x.marker b) := rfl

theorem applyInsertions_append (l₁ l₂ : List Insertion) (b : List String) :
    applyInsertions (l₁ ++ l₂) b = applyInsertions l₂ (applyInsertions l₁ b) := by
  simp [applyInsertions, List.foldl_append]

theorem spliceAt_succ_cons (k : Nat) (m c : String) (b : List String) :
    spliceAt (k + 1) m (c :: b) = c :: spliceAt k m b := by
  simp [spliceAt, List.take_succ_cons, List.drop_succ_cons]

theorem applyInsertions_cons_of_pos (ins : List Insertion)
    (h : ∀ x ∈ ins, x.index ≠ 0) (c : String) (b : List String) :
    applyInsertions ins (c :: b) = c :: applyInsertions (decrAll ins) b := by
  induction ins generalizing b with
  | nil => rfl
  | cons x xs ih =>
    have hx : x.index ≠ 0 := h x (List.mem_cons_self x xs)
    obtain ⟨k, hk⟩ : ∃ k, x.index = k + 1 := ⟨x.index - 1, by omega⟩
    have hdec : decrAll (x :: xs) = ⟨k, x.marker⟩ :: decrAll xs := by
      simp [decrAll, hk]
    rw [applyInsertions_cons, hk, spliceAt_succ_cons,
      ih (fun y hy => h y (List.mem_cons_of_mem x hy)), hdec, applyInsertions_cons]

theorem applyInsertions_of_zero (ins : List Insertion)
    (h : ∀ x ∈ ins, x.index = 0) (b : List String) :
    applyInsertions ins b = (ins.map fun x => x.marker).reverse ++ b := by
  induction ins generalizing b with
  | nil => rfl
  | cons x xs ih =>
    have hx : x.index = 0 := h x (List.mem_cons_self x xs)
    rw [applyInsertions_cons, hx]
    show applyInsertions xs (x.marker :: b) = _
    rw [ih (fun y hy => h y (List.mem_cons_of_mem x hy))]
    simp [List.reverse_cons, List.append_assoc]

theorem sorted_split (ins : List Insertion)
    (h : List.Pairwise (fun a b => b.index ≤ a.index) ins) :
    ins = (ins.filter fun x => x.index != 0) ++ (ins.filter fun x => x.index == 0) := by
  induction ins with
  | nil => rfl
  | cons x xs ih =>
    rw [List.pairwise_cons] at h
    obtain ⟨hx, hxs⟩ := h
    by_cases h0 : x.index = 0
    · have hall : ∀ y ∈ xs, y.index = 0 := fun y hy => by
        have := hx y hy
        omega
      have h1 : (x :: xs).filter (fun x => x.index != 0) = [] := by
        rw [List.filter_eq_nil_iff]
        intro a ha
        rcases List.mem_cons.mp ha with rfl | ha'
        · simp [h0]
        · simp [hall a ha']
      have h2 : (x :: xs).filter (fun x => x.index == 0) = x :: xs := by
        rw [List.filter_eq_self]
        intro a ha
        rcases List.mem_cons.mp ha with rfl | ha'
        · simp [h0]
        · simp [hall a ha']
      rw [h1, h2, List.nil_append]
    · simp only [List.filter_cons]
      rw [if_pos (by simp [h0]), if_neg (by simp [h0]), List.cons_append]
      exact congrArg (x :: ·) (ih hxs)

theorem filter_decr_eq (p : Nat) (ins : List Insertion) :
    (decrAll (ins.filter fun x => x.index != 0)).filter (fun x => x.index == p)
      = decrAll (ins.filter fun x => x.index == p + 1) := by
  induction ins with
  | nil => rfl
  | cons x xs ih =>
    by_cases h0 : x.index = 0
    · have hp1 : x.index ≠ p + 1 := by omega
      simp only [decrAll, List.filter_cons, List.map_cons] at *
      simp [h0, hp1, ih]
    · by_cases hp : x.index = p + 1
      · simp only [decrAll, List.filter_cons, List.map_cons] at *
        simp [h0, hp, ih]
      · have hne : x.index - 1 ≠ p := by omega
        simp only [decrAll, List.filter_cons, List.map_cons] at *
        simp [h0, hp, hne, ih]

theorem markersAtRev_decr (ins : List Insertion) (p : Nat) :
    markersAtRev (decrAll (ins.filter fun x => x.index != 0)) p = markersAtRev ins (p + 1) := by
  unfold markersAtRev
  rw [filter_decr_eq]
  unfold decrAll
  rw [List.map_map]
  rfl

theorem placeRef_shift (ins : List Insertion) (b : List String) (p : Nat) :
    placeRef (decrAll (ins.filter fun x => x.index != 0)) p b = placeRef ins (p + 1) b := by
  induction b generalizing p with
  | nil => simp [placeRef, markersAtRev_decr]
  | cons c rest ih => simp [placeRef, markersAtRev_decr, ih]

/-- Claim C4: for every set of insertions applied in descending-index
order (a list weakly descending by index, each index within the buffer),
the source's splice loop (`applyInsertions`) places every marker exactly
at its recorded offset of the pre-insertion buffer: its result is
`placeRef`, which by construction puts the markers recorded at index `q`
directly before the buffer's original element number `q`, so applying an
insertion at a higher index never shifts the target offset of a
lower-index insertion applied later. -/
theorem applyInsertions_sorted_eq_placeRef (buf : List String) (ins : List Insertion)
    (hs : List.Pairwise (fun a b => b.index ≤ a.index) ins)
    (hb : ∀ x ∈ ins, x.index ≤ buf.length) :
    applyInsertions ins buf = placeRef ins 0 buf := by
  induction buf generalizing ins with
  | nil =>
    have hz : ∀ x ∈ ins, x.index = 0 := fun x hx => by
      have := hb x hx
      simp at this
      omega
    rw [applyInsertions_of_zero ins hz]
    show _ = markersAtRev ins 0
    have hf : ins.filter (fun x => x.index == 0) = ins :=
      List.filter_eq_self.mpr (fun a ha => by simp [hz a ha])
    unfold markersAtRev
    rw [hf, List.append_nil]
  | cons c rest ih =>
    have hpos : ∀ x ∈ ins.filter (fun x => x.index != 0), x.index ≠ 0 := by
      intro x hx
      have := (List.mem_filter.mp hx).2
      simpa using this
    have hzero : ∀ x ∈ ins.filter (fun x => x.index == 0), x.index = 0 := by
      intro x hx
      have := (List.mem_filter.mp hx).2
      simpa using this
    have hs1 : List.Pairwise (fun a b : Insertion => b.index ≤ a.index)
        (ins.filter fun x => x.index != 0) := hs.filter _
    have hs2 : List.Pairwise (fun a b : Insertion => b.index ≤ a.index)
        (decrAll (ins.filter fun x => x.index != 0)) := by
      unfold decrAll
      rw [List.pairwise_map]
      exact hs1.imp fun h => Nat.sub_le_sub_right h 1
    have hb2 : ∀ x ∈ decrAll (ins.filter fun x => x.index != 0), x.index ≤ rest.length := by
      intro x hx
      unfold decrAll at hx
      obtain ⟨y, hy, rfl⟩ := List.mem_map.mp hx
      have := hb y (List.mem_of_mem_filter hy)
      simp at this ⊢
      omega
    calc applyInsertions ins (c :: rest)
        = applyInsertions ((ins.filter fun x => x.index != 0)
            ++ (ins.filter fun x => x.index == 0)) (c :: rest) := by
          rw [← sorted_split ins hs]
      _ = applyInsertions (ins.filter fun x => x.index == 0)
            (applyInsertions (ins.filter fun x => x.index != 0) (c :: rest)) :=
          applyInsertions_append _ _ _
      _ = applyInsertions (ins.filter fun x => x.index == 0)
            (c :: applyInsertions (decrAll (ins.filter fun x => x.index != 0)) rest) := by
          rw [applyInsertions_cons_of_pos _ hpos]
      _ = ((ins.filter fun x => x.index == 0).map fun x => x.marker).reverse
            ++ c :: applyInsertions (decrAll (ins.filter fun x => x.index != 0)) rest :=
          applyInsertions_of_zero _ hzero _
      _ = ((ins.filter fun x => x.index == 0).map fun x => x.marker).reverse
            ++ c :: placeRef (decrAll (ins.filter fun x => x.index != 0)) 0 rest := by
          rw [ih _ hs2 hb2]
      _ = markersAtRev ins 0 ++ c :: placeRef ins 1 rest := by
          rw [placeRef_shift]
          rfl
      _ = placeRef ins 0 (c :: rest) := rfl

example :
    applyInsertions [⟨10, "[1]"⟩, ⟨5, "[2]"⟩, ⟨2, "[3]"⟩]
      (("abcdefghij".data).map String.singleton) =
    placeRef [⟨10, "[1]"⟩, ⟨5, "[2]"⟩, ⟨2, "[3]"⟩] 0
      (("abcdefghij".data).map String.singleton) := by
  decide

example :
    List.Pairwise (fun a b : Insertion => b.index ≤ a.index)
      [⟨10, "[1]"⟩, ⟨5, "[2]"⟩, ⟨2, "[3]"⟩] := by
  decide

/-! ## Splice shapes used by the tie and clamping claims -/

theorem spliceAt_same (e : Nat) (m1 m2 : String) (buf : List String)
    (he : e ≤ buf.length) :
    spliceAt e m2 (spliceAt e m1 buf) = buf.take e ++ m2 :: m1 :: buf.drop e := by
  unfold spliceAt
  have hlen : (buf.take e).length = e := by
    rw [List.length_take]
    omega
  have h1 : (buf.take e ++ m1 :: buf.drop e).take e = buf.take e := by
    have := List.take_left (buf.take e) (m1 :: buf.drop e)
    rwa [hlen] at this
  have h2 : (buf.take e ++ m1 :: buf.drop e).drop e = m1 :: buf.drop e := by
    have := List.drop_left (buf.take e) (m1 :: buf.drop e)
    rwa [hlen] at this
  rw [h1, h2]

theorem spliceAt_of_length_le (e : Nat) (m : String) (buf : List String)
    (he : buf.length ≤ e) :
    spliceAt e m buf = buf ++ [m] := by
  unfold spliceAt
  rw [List.take_of_length_le he, List.drop_eq_nil_of_le he]

theorem fmtSources_length (srcs : List GroundingChunkItem) :
    (fmtSources srcs).length = srcs.length := by
  simp [fmtSources]

/-- Reduction of the merger on present, non-empty chunk and support lists:
the inline pass followed by the trailing source block. -/
theorem mergeCitations_spec (text : String) (srcs : List GroundingChunkItem)
    (sup : List GroundingSupportItem) (h1 : 0 < srcs.length) (h2 : 0 < sup.length) :
    mergeCitations text (some srcs) (some sup)
      = joinAll (applyInsertions (sortDesc (buildInsertions sup))
          (text.data.map String.singleton))
        ++ "\n\nSources:\n" ++ String.intercalate "\n" (fmtSources srcs) := by
  simp only [mergeCitations]
  rw [if_pos h1, if_pos h2, if_pos (by rw [fmtSources_length]; exact h1)]

/-! ## Loopback OAuth callback handler (src/oauth.ts, lines 72-109)

The single serviced HTTP request of `authWithWeb`.  URL-query parsing is
done by the Node `url` library; the embedding therefore receives the
request already parsed: whether the path contains `/oauth2callback`, and
the `error`, `state` and `code` query parameters (`none` = parameter
absent, matching `searchParams.get` returning `null`).  The token
exchange (`client.getToken`) is a network call; the handler result
records whether it was reached. -/

/-- The parsed callback request. -/
structure CallbackReq where
  onCallbackPath : Bool
  error : Option String
  state : Option String
  code : Option String
deriving Repr, DecidableEq

/-- How the promise of `authWithWeb` settles for the serviced request,
one constructor per reject/resolve site of the source. -/
inductive CallbackOutcome where
  /-- `reject(new Error('Unexpected request: ' + req.url))` -/
  | unexpectedRequest
  /-- `reject(new Error('Error during authentication: ...'))` -/
  | authDenied (e : String)
  /-- `reject(new Error('State mismatch. Possible CSRF attack'))` -/
  | csrfMismatch
  /-- the `qs.get('code')` branch: the code is exchanged at the token
  endpoint and the promise resolves (exchange outcome abstracted) -/
  | tokenExchanged
  /-- `reject(new Error('No code found in request'))` -/
  | noCode
deriving Repr, DecidableEq

/-- The callback handler of `authWithWeb` (src/oauth.ts, lines 72-109):
branch order exactly as in the source — path check, then `error`
parameter, then `state` comparison (`!==`, so an absent parameter also
mismatches), then `code`.  The second component records whether
`client.getToken` (the token endpoint) was called. -/
def handleOauthCallback (genState : String) (req : CallbackReq) :
    CallbackOutcome × Bool :=
  if !req.onCallbackPath then
    (.unexpectedRequest, false)
  else if truthyOpt req.error then
    (.authDenied ("Error during authentication: " ++ (req.error.getD "")), false)
  else if req.state ≠ some genState then
    (.csrfMismatch, false)
  else if truthyOpt req.code then
    (.tokenExchanged, true)
  else
    (.noCode, false)

/-! ## Credential store (src/oauth.ts, lines 140-170)

`cacheCredentials` writes `JSON.stringify(credentials, null, 2)` to the
fixed per-user path; `loadCachedCredentials` reads that path, parses it,
sets the parsed object on the client and then validates it over the
network inside one `try` whose `catch` returns `false`.
`JSON.stringify` / `JSON.parse` are JavaScript built-ins; the embedding
abstracts their string encoding and lets the file hold either a JSON
value or an unparseable blob, so a corrupt file is representable.  The
two network validation steps (`getAccessToken`, `getTokenInfo`) enter as
oracle arguments. -/

/-- A JSON value (the subset of shapes the credential file can hold). -/
inductive JsonVal where
  | jnull
  | jbool (b : Bool)
  | jnum (n : Int)
  | jstr (s : String)
  | jarr (l : List JsonVal)
  | jobj (fields : List (String × JsonVal))

/-- `Credentials` of google-auth-library as persisted by the source:
every field optional, `expiry_date` a number. -/
structure Credentials where
  access_token : Option String
  refresh_token : Option String
  scope : Option String
  token_type : Option String
  id_token : Option String
  expiry_date : Option Int
deriving Repr, DecidableEq

/-- `JSON.stringify(credentials)` shape: present fields in declaration
order, `undefined` fields omitted. -/
def credsToJson (c : Credentials) : JsonVal :=
  .jobj ((match c.access_token with | some s => [("access_token", JsonVal.jstr s)] | none => [])
    ++ (match c.refresh_token with | some s => [("refresh_token", JsonVal.jstr s)] | none => [])
    ++ (match c.scope with | some s => [("scope", JsonVal.jstr s)] | none => [])
    ++ (match c.token_type with | some s => [("token_type", JsonVal.jstr s)] | none => [])
    ++ (match c.id_token with | some s => [("id_token", JsonVal.jstr s)] | none => [])
    ++ (match c.expiry_date with | some n => [("expiry_date", JsonVal.jnum n)] | none => []))

/-- First value bound to `key` in a parsed JSON object, as JavaScript
property access (missing key reads as `undefined`). -/
def lookupField (key : String) : List (String × JsonVal) → Option JsonVal
  | [] => none
  | (k, v) :: rest => if k = key then some v else lookupField key rest

/-- Read a string-valued field (`undefined` when absent or non-string). -/
def fieldStr (key : String) (fields : List (String × JsonVal)) : Option String :=
  match lookupField key fields with
  | some (.jstr s) => some s
  | _ => none

/-- Read a number-valued field. -/
def fieldNum (key : String) (fields : List (String × JsonVal)) : Option Int :=
  match lookupField key fields with
  | some (.jnum n) => some n
  | _ => none

/-- `client.setCredentials(JSON.parse(creds))`: property reads on the
parsed value; a non-object parse result yields all-`undefined` fields. -/
def credsOfJson : JsonVal → Credentials
  | .jobj fields =>
    ⟨fieldStr "access_token" fields, fieldStr "refresh_token" fields,
      fieldStr "scope" fields, fieldStr "token_type" fields,
      fieldStr "id_token" fields, fieldNum "expiry_date" fields⟩
  | _ => ⟨none, none, none, none, none, none⟩

/-- What the credential file path can hold. -/
inductive CredFileState where
  /-- no file at the path — `fs.readFile` rejects -/
  | absent
  /-- file exists but cannot be read — `fs.readFile` rejects -/
  | unreadable
  /-- readable file whose content is not valid JSON — `JSON.parse` throws -/
  | corrupt (raw : String)
  /-- readable file holding a JSON value -/
  | stored (j : JsonVal)

/-- `cacheCredentials` (src/oauth.ts, lines 160-166): create the parent
directory and overwrite the file with the full JSON representation. -/
def cacheCredentials (c : Credentials) (_prior : CredFileState) : CredFileState :=
  .stored (credsToJson c)

/-- `loadCachedCredentials` (src/oauth.ts, lines 140-158).  Returns the
boolean handed to the caller together with the credentials left set on
the client (`none` when `setCredentials` was never reached).  The
`tokenResult` oracle is `client.getAccessToken()` — `.error` when it
throws, otherwise the (possibly absent or empty) token string; the
`tokenInfoOk` oracle is `client.getTokenInfo(token)`.  Every failure is
swallowed by the surrounding `try`/`catch` which returns `false`. -/
def loadCachedCredentials (file : CredFileState)
    (tokenResult : Except String (Option String))
    (tokenInfoOk : Except String Unit) : Bool × Option Credentials :=
  match file with
  | .absent => (false, none)
  | .unreadable => (false, none)
  | .corrupt _ => (false, none)
  | .stored j =>
    let c := credsOfJson j
    match tokenResult with
    | .error _ => (false, some c)
    | .ok t =>
      if !truthyOpt t then (false, some c)
      else
        match tokenInfoOk with
        | .error _ => (false, some c)
        | .ok _ => (true, some c)

/-! ## Project resolver (src/setup.ts, `setupUserProject`)

`setupUserProject` seeds a project id from `GOOGLE_CLOUD_PROJECT`, lets a
previously saved `~/.google-web-search/config.json` fill it only when the
environment gave none, then calls the remote `loadCodeAssist` discovery
endpoint and, when onboarding is required, the `onboardUser` endpoint.
The two remote calls enter as oracles: `loadResult` is what
`loadCodeAssist` returns (or throws), `onboardResult` what `onboardUser`
returns (or throws).  `saveProjectConfig` only logs on failure and does
not affect the resolved id, so it is not modelled. -/

/-- The parsed config file: `config.project_id` (missing field =
`undefined`); `none` for the whole read when `readFile`/`JSON.parse`
threw (the source ignores that error). -/
structure ConfigJson where
  project_id : Option String
deriving Repr, DecidableEq

/-- `loadCodeAssist` response as consumed by `setupUserProject`:
`cloudaicompanionProject?` and `onboardingRequired?` (an absent flag is
falsy). -/
structure LoadResult where
  cloudaicompanionProject : Option String
  onboardingRequired : Bool
deriving Repr, DecidableEq

/-- `setupUserProject` (src/setup.ts, lines 196-262). -/
def setupUserProject (env : Option String) (confRead : Option ConfigJson)
    (loadResult : Except String LoadResult)
    (onboardResult : Except String (Option String)) : Except String String :=
  let projectId0 := env
  let projectId1 :=
    match confRead with
    | some conf =>
      if truthyOpt conf.project_id && !truthyOpt projectId0 then conf.project_id
      else projectId0
    | none => projectId0
  match loadResult with
  | .error e => .error e
  | .ok lr =>
    let projectId2 :=
      if truthyOpt lr.cloudaicompanionProject then lr.cloudaicompanionProject
      else projectId1
    let afterOnboard : Except String (Option String) :=
      if lr.onboardingRequired then
        match onboardResult with
        | .error e => .error e
        | .ok ob => .ok (if truthyOpt ob then ob else projectId2)
      else .ok projectId2
    match afterOnboard with
    | .error e => .error e
    | .ok none => .error "GOOGLE_CLOUD_PROJECT is required"
    | .ok (some s) =>
      if s = "" then .error "GOOGLE_CLOUD_PROJECT is required" else .ok s

/-! ## Lazy client initialization and the search handler (src/index.ts)

`handleWebSearch` first lazily initializes the client, then validates the
query, then issues the remote search and merges citations.  The
environment variables read by `initializeGeminiClient` become an explicit
record; the fallible outward-facing calls of the OAuth path
(`getOauthClient`, `setupUserProject`) and the search request itself
enter as oracles.  Every call that reaches the network is logged as a
`NetEvent` in source order, so the claim about when validation happens
relative to network activity is a statement about the event list. -/

/-- The environment variables read by `initializeGeminiClient`. -/
structure Env where
  googleApiKey : Option String
  geminiApiKey : Option String
  /-- `process.env.USE_OAUTH === 'true'` -/
  useOAuthFlag : Bool
deriving Repr, DecidableEq

/-- The lazily-initialized client fields of `GoogleWebSearchMCP` that
`handleWebSearch` inspects (`this.model`, `this.oauthClient`). -/
structure ClientState where
  hasModel : Bool
  hasOauthClient : Bool
deriving Repr, DecidableEq

/-- Network-reaching calls, in the order the source makes them.  The API
key branch of `initializeGeminiClient` constructs the SDK objects locally
and performs no network call. -/
inductive NetEvent where
  /-- `getOauthClient()` — cached-credential validation or the browser
  login flow (src/index.ts, line 74) -/
  | getOauthClientCall
  /-- `setupUserProject(...)` — project discovery / onboarding
  (src/index.ts, line 78) -/
  | setupUserProjectCall
  /-- `this.callCodeAssistAPI(query)` (src/index.ts, line 163) -/
  | codeAssistSearch
  /-- `chat.sendMessage(query)` (src/index.ts, line 173) -/
  | genAiSearch
deriving Repr, DecidableEq

/-- What the tool call returns: the text content and the `isError` flag. -/
structure CallResult where
  text : String
  isError : Bool
deriving Repr, DecidableEq

/-- `initializeGeminiClient` (src/index.ts, lines 65-104): pick the OAuth
path when `USE_OAUTH === 'true'` or no API key is set; otherwise build
the API-key client locally.  Returns the network events it performed and
either the new client state or the thrown error. -/
def initializeGeminiClient (env : Env) (oauthResult : Except String Unit)
    (setupResult : Except String String) :
    List NetEvent × Except String ClientState :=
  let apiKey := if truthyOpt env.googleApiKey then env.googleApiKey else env.geminiApiKey
  let useOAuth := env.useOAuthFlag || !truthyOpt apiKey
  if useOAuth then
    match oauthResult with
    | .error e => ([.getOauthClientCall], .error e)
    | .ok _ =>
      match setupResult with
      | .error e => ([.getOauthClientCall, .setupUserProjectCall], .error e)
      | .ok _ => ([.getOauthClientCall, .setupUserProjectCall], .ok ⟨false, true⟩)
  else if truthyOpt apiKey then
    ([], .ok ⟨true, false⟩)
  else
    ([], .error "Authentication required.")

/-- The raw search response as `handleWebSearch` consumes it
(`responseText`, `groundingChunks?`, `groundingSupports?`). -/
structure SearchResponse where
  responseText : String
  sources : Option (List GroundingChunkItem)
  groundingSupports : Option (List GroundingSupportItem)

/-- The lazy-initialization guard of `handleWebSearch` (src/index.ts,
lines 141-143): initialize only when neither client field is set. -/
def lazyInit (st : ClientState) (env : Env) (oauthResult : Except String Unit)
    (setupResult : Except String String) : List NetEvent × Except String ClientState :=
  if !st.hasModel && !st.hasOauthClient then
    initializeGeminiClient env oauthResult setupResult
  else ([], .ok st)

/-- `handleWebSearch` (src/index.ts, lines 139-255): lazy initialization,
query validation, remote search, citation merge; the surrounding `try`
turns any thrown error into an `isError` result.  Returns the network
events performed, in order, together with the tool result. -/
def handleWebSearch (st : ClientState) (env : Env)
    (oauthResult : Except String Unit) (setupResult : Except String String)
    (searchResult : Except String SearchResponse) (query : String) :
    List NetEvent × CallResult :=
  let initEvents := (lazyInit st env oauthResult setupResult).1
  match (lazyInit st env oauthResult setupResult).2 with
  | .error e =>
    (initEvents,
      ⟨"Error during web search for query \"" ++ query ++ "\": " ++ e, true⟩)
  | .ok st' =>
    if query = "" || jsTrim query = "" then
      (initEvents, ⟨"Error: The query parameter cannot be empty.", true⟩)
    else
      let (searchEvents, srE) :=
        if st'.hasOauthClient then ([NetEvent.codeAssistSearch], searchResult)
        else if st'.hasModel then ([NetEvent.genAiSearch], searchResult)
        else ([], .error "No authentication method available")
      match srE with
      | .error e =>
        (initEvents ++ searchEvents,
          ⟨"Error during web search for query \"" ++ query ++ "\": " ++ e, true⟩)
      | .ok r =>
        if r.responseText = "" || jsTrim r.responseText = "" then
          (initEvents ++ searchEvents,
            ⟨"No search results or information found for query: \"" ++ query ++ "\"", false⟩)
        else
          (initEvents ++ searchEvents,
            ⟨"Web search results for \"" ++ query ++ "\":\n\n"
              ++ mergeCitations r.responseText r.sources r.groundingSupports, false⟩)

/-! ## Claim theorems for the citation merger -/

/-- Witness for claim C4 at the spec's own example: markers at indices
[10, 5, 2] into the ten-character buffer of `"abcdefghij"`. -/
theorem applyInsertions_sorted_eq_placeRef_witness :
    List.Pairwise (fun a b : Insertion => b.index ≤ a.index)
        [⟨10, "[1]"⟩, ⟨5, "[2]"⟩, ⟨2, "[3]"⟩]
    ∧ (∀ x ∈ ([⟨10, "[1]"⟩, ⟨5, "[2]"⟩, ⟨2, "[3]"⟩] : List Insertion),
        x.index ≤ (("abcdefghij".data).map String.singleton).length)
    ∧ applyInsertions [⟨10, "[1]"⟩, ⟨5, "[2]"⟩, ⟨2, "[3]"⟩]
        (("abcdefghij".data).map String.singleton)
      = placeRef [⟨10, "[1]"⟩, ⟨5, "[2]"⟩, ⟨2, "[3]"⟩] 0
        (("abcdefghij".data).map String.singleton) :=
  ⟨by decide, by decide,
    applyInsertions_sorted_eq_placeRef _ _ (by decide) (by decide)⟩

/-- Claim C3: the merger on the exact scenario of the spec — text
`"Paris is the capital."`, one support over [0, 21) citing chunk 0, one
chunk titled `Wiki` at `https://wiki.example` — produces exactly the
annotated text with the inline `[1]` marker and the trailing source
list. -/
theorem mergeCitations_paris_scenario :
    mergeCitations "Paris is the capital."
      (some [⟨some ⟨some "https://wiki.example", some "Wiki"⟩⟩])
      (some [⟨some ⟨0, 21, none⟩, some [0]⟩]) =
    "Paris is the capital.[1]\n\nSources:\n[1] Wiki (https://wiki.example)" := by
  decide

/-- Claim C5: two supports sharing the same `endIndex` (within the text)
never crash the merger; both markers land adjacently at that single
offset — exactly `e` original characters precede them — and their order
is deterministic, the later-discovered support's marker first
(reverse-discovery order). -/
theorem mergeCitations_shared_endIndex (text : String) (srcs : List GroundingChunkItem)
    (s1 s2 : GroundingSupportItem) (seg1 seg2 : GroundingSupportSegment)
    (l1 l2 : List Nat) (e : Nat)
    (hseg1 : s1.segment = some seg1) (hidx1 : s1.groundingChunkIndices = some l1)
    (hend1 : seg1.endIndex = e)
    (hseg2 : s2.segment = some seg2) (hidx2 : s2.groundingChunkIndices = some l2)
    (hend2 : seg2.endIndex = e)
    (hsrcs : srcs ≠ []) (he : e ≤ text.data.length) :
    mergeCitations text (some srcs) (some [s1, s2])
      = joinAll ((text.data.take e).map String.singleton
          ++ markerOf l2 :: markerOf l1 :: (text.data.drop e).map String.singleton)
        ++ "\n\nSources:\n" ++ String.intercalate "\n" (fmtSources srcs) := by
  have h1 : 0 < srcs.length := List.length_pos.mpr hsrcs
  rw [mergeCitations_spec text srcs [s1, s2] h1 (by simp)]
  have hins : buildInsertions [s1, s2] = [⟨e, markerOf l1⟩, ⟨e, markerOf l2⟩] := by
    simp [buildInsertions, hseg1, hidx1, hseg2, hidx2, hend1, hend2]
  have hsort : sortDesc [(⟨e, markerOf l1⟩ : Insertion), ⟨e, markerOf l2⟩]
      = [⟨e, markerOf l1⟩, ⟨e, markerOf l2⟩] := by
    simp [sortDesc, insertDesc]
  rw [hins, hsort]
  have happ : applyInsertions [(⟨e, markerOf l1⟩ : Insertion), ⟨e, markerOf l2⟩]
      (text.data.map String.singleton)
      = (text.data.map String.singleton).take e ++ markerOf l2 :: markerOf l1
          :: (text.data.map String.singleton).drop e := by
    show spliceAt e (markerOf l2) (spliceAt e (markerOf l1)
      (text.data.map String.singleton)) = _
    exact spliceAt_same e (markerOf l1) (markerOf l2) _
      (by rw [List.length_map]; exact he)
  rw [happ, List.map_take, List.map_drop]

/-- Witness for claim C5: text `"Hello"`, two supports both ending at
index 5 citing chunks 0 and 1 — markers `[2]` then `[1]` stack at
offset 5. -/
theorem mergeCitations_shared_endIndex_witness :
    ((⟨some ⟨0, 5, none⟩, some [0]⟩ : GroundingSupportItem).segment = some ⟨0, 5, none⟩)
    ∧ ([⟨some ⟨some "https://a.example", some "A"⟩⟩,
        ⟨some ⟨some "https://b.example", some "B"⟩⟩] : List GroundingChunkItem) ≠ []
    ∧ (5 ≤ "Hello".data.length)
    ∧ mergeCitations "Hello"
        (some [⟨some ⟨some "https://a.example", some "A"⟩⟩,
               ⟨some ⟨some "https://b.example", some "B"⟩⟩])
        (some [⟨some ⟨0, 5, none⟩, some [0]⟩, ⟨some ⟨2, 5, none⟩, some [1]⟩])
      = joinAll (("Hello".data.take 5).map String.singleton
          ++ markerOf [1] :: markerOf [0] :: ("Hello".data.drop 5).map String.singleton)
        ++ "\n\nSources:\n" ++ String.intercalate "\n"
          (fmtSources [⟨some ⟨some "https://a.example", some "A"⟩⟩,
                       ⟨some ⟨some "https://b.example", some "B"⟩⟩]) :=
  ⟨rfl, by decide, by decide,
    mergeCitations_shared_endIndex "Hello" _ _ _ ⟨0, 5, none⟩ ⟨2, 5, none⟩ [0] [1] 5
      rfl rfl rfl rfl rfl rfl (by decide) (by decide)⟩

/-- Claim C7: with an empty chunk list (and likewise with the chunk list
absent) the merger returns the input text unchanged — no inline markers,
no trailing Sources block. -/
theorem mergeCitations_no_chunks (text : String)
    (sup : Option (List GroundingSupportItem)) :
    mergeCitations text (some []) sup = text ∧ mergeCitations text none sup = text := by
  constructor
  · simp [mergeCitations]
  · rfl

/-- Claim C10: an insertion index beyond the text length does not fail —
`Array.prototype.splice` clamps it — so the marker is appended after all
original characters: first stated for the splice step on any buffer, then
end-to-end for the merger with one out-of-range support. -/
theorem mergeCitations_clamps_out_of_range :
    (∀ (e : Nat) (m : String) (buf : List String), buf.length < e →
        spliceAt e m buf = buf ++ [m])
    ∧ (∀ (text : String) (srcs : List GroundingChunkItem) (s : GroundingSupportItem)
        (seg : GroundingSupportSegment) (l : List Nat) (e : Nat),
        s.segment = some seg → seg.endIndex = e → s.groundingChunkIndices = some l →
        srcs ≠ [] → text.data.length < e →
        mergeCitations text (some srcs) (some [s])
          = text ++ markerOf l ++ "\n\nSources:\n"
            ++ String.intercalate "\n" (fmtSources srcs)) := by
  constructor
  · intro e m buf h
    exact spliceAt_of_length_le e m buf (Nat.le_of_lt h)
  · intro text srcs s seg l e hseg hend hidx hsrcs he
    rw [mergeCitations_spec text srcs [s] (List.length_pos.mpr hsrcs) (by simp)]
    have hins : buildInsertions [s] = [⟨e, markerOf l⟩] := by
      simp [buildInsertions, hseg, hidx, hend]
    rw [hins]
    have happ : applyInsertions [(⟨e, markerOf l⟩ : Insertion)]
        (text.data.map String.singleton)
        = text.data.map String.singleton ++ [markerOf l] := by
      show spliceAt e (markerOf l) (text.data.map String.singleton) = _
      exact spliceAt_of_length_le e _ _ (by rw [List.length_map]; omega)
    rw [show sortDesc [(⟨e, markerOf l⟩ : Insertion)] = [⟨e, markerOf l⟩] from rfl,
      happ, joinAll_append, joinAll_singletons, str_mk_data, joinAll_singleton]

/-- Witness for claim C10: a support ending at index 10 on the 2-character
text `"Hi"`. -/
theorem mergeCitations_clamps_out_of_range_witness :
    ("Hi".data.length < 10)
    ∧ spliceAt 10 "[1]" ["a"] = ["a", "[1]"]
    ∧ mergeCitations "Hi" (some [⟨some ⟨some "https://a.example", some "A"⟩⟩])
        (some [⟨some ⟨0, 10, none⟩, some [0]⟩])
      = "Hi" ++ markerOf [0] ++ "\n\nSources:\n"
        ++ String.intercalate "\n" (fmtSources [⟨some ⟨some "https://a.example", some "A"⟩⟩]) :=
  ⟨by decide,
    mergeCitations_clamps_out_of_range.1 10 "[1]" ["a"] (by decide),
    mergeCitations_clamps_out_of_range.2 "Hi" _ _ ⟨0, 10, none⟩ [0] 10
      rfl rfl rfl (by decide) (by decide)⟩

/-! ## Claim theorems for the OAuth callback -/

/-- Claim C6, counterexample to the claim as stated: a callback whose
`state` differs from the generated one but which also carries an `error`
parameter is rejected by the earlier `error` branch (src/oauth.ts, line
83) with `Error during authentication`, not with the CSRF-mismatch error
— though the token endpoint is still never called. -/
theorem handleOauthCallback_error_param_beats_mismatch :
    handleOauthCallback "good-state" ⟨true, some "access_denied", some "evil-state", none⟩
      = (.authDenied "Error during authentication: access_denied", false)
    ∧ (some "evil-state" : Option String) ≠ some "good-state"
    ∧ CallbackOutcome.authDenied "Error during authentication: access_denied"
      ≠ CallbackOutcome.csrfMismatch := by
  refine ⟨by decide, by decide, by decide⟩

/-- Claim C6, amended: a callback that reaches the `/oauth2callback` path
with no (truthy) `error` parameter and a `state` differing from the
generated one fails with the CSRF-mismatch rejection and does not call
the token endpoint; moreover for every callback with a mismatched
`state`, whatever its other parameters, the token endpoint is never
called. -/
theorem handleOauthCallback_csrf_mismatch (genState : String) (req : CallbackReq)
    (hpath : req.onCallbackPath = true) (herr : truthyOpt req.error = false)
    (hstate : req.state ≠ some genState) :
    handleOauthCallback genState req = (.csrfMismatch, false)
    ∧ ∀ r : CallbackReq, r.state ≠ some genState →
        (handleOauthCallback genState r).2 = false := by
  constructor
  · simp [handleOauthCallback, hpath, herr, hstate]
  · intro r hr
    by_cases hp : r.onCallbackPath = true
    · by_cases he : truthyOpt r.error = true
      · simp [handleOauthCallback, hp, he]
      · simp [handleOauthCallback, hp, he, hr]
    · simp [handleOauthCallback, hp]

/-- Witness for claim C6 (amended): a mismatched clean callback is
rejected as CSRF, and a mismatched callback carrying a code still never
reaches the token endpoint. -/
theorem handleOauthCallback_csrf_mismatch_witness :
    ((⟨true, none, some "evil", some "c0de"⟩ : CallbackReq).onCallbackPath = true)
    ∧ truthyOpt (⟨true, none, some "evil", some "c0de"⟩ : CallbackReq).error = false
    ∧ ((⟨true, none, some "evil", some "c0de"⟩ : CallbackReq).state ≠ some "good")
    ∧ handleOauthCallback "good" ⟨true, none, some "evil", some "c0de"⟩
        = (.csrfMismatch, false)
    ∧ (handleOauthCallback "good" ⟨false, some "x", some "other", some "y"⟩).2 = false :=
  ⟨rfl, rfl, by decide,
    (handleOauthCallback_csrf_mismatch "good" ⟨true, none, some "evil", some "c0de"⟩
      rfl rfl (by decide)).1,
    (handleOauthCallback_csrf_mismatch "good" ⟨true, none, some "evil", some "c0de"⟩
      rfl rfl (by decide)).2 ⟨false, some "x", some "other", some "y"⟩ (by decide)⟩

/-! ## Claim theorems for the credential store -/

theorem credsOfJson_credsToJson (c : Credentials) : credsOfJson (credsToJson c) = c := by
  obtain ⟨a, r, s, t, i, e⟩ := c
  cases a <;> cases r <;> cases s <;> cases t <;> cases i <;> cases e <;> rfl

theorem loadCachedCredentials_stored_snd (j : JsonVal)
    (tokenResult : Except String (Option String)) (tokenInfoOk : Except String Unit) :
    (loadCachedCredentials (.stored j) tokenResult tokenInfoOk).2
      = some (credsOfJson j) := by
  unfold loadCachedCredentials
  cases tokenResult with
  | error e => rfl
  | ok t =>
    by_cases h : truthyOpt t = true
    · cases tokenInfoOk <;> simp [h]
    · simp [h]

/-- Claim C8: saving credentials and then loading them yields credentials
equal to the original — the JSON representation written by
`cacheCredentials` parses back to the same field values, whatever the
prior file contents and however the network validation of the load turns
out. -/
theorem save_then_load_roundtrip (c : Credentials) (prior : CredFileState)
    (tokenResult : Except String (Option String)) (tokenInfoOk : Except String Unit) :
    (loadCachedCredentials (cacheCredentials c prior) tokenResult tokenInfoOk).2
      = some c := by
  show (loadCachedCredentials (.stored (credsToJson c)) tokenResult tokenInfoOk).2 = some c
  rw [loadCachedCredentials_stored_snd, credsOfJson_credsToJson]

/-- Claim C9: the credential load never throws: for an absent, an
unreadable, and a corrupt (unparseable) credential file it returns
`false` ("no credentials") — its return type carries no error, and every
failure state maps to `false` whatever the network oracles do. -/
theorem loadCachedCredentials_failure_is_false
    (tokenResult : Except String (Option String)) (tokenInfoOk : Except String Unit)
    (raw : String) :
    (loadCachedCredentials .absent tokenResult tokenInfoOk).1 = false
    ∧ (loadCachedCredentials .unreadable tokenResult tokenInfoOk).1 = false
    ∧ (loadCachedCredentials (.corrupt raw) tokenResult tokenInfoOk).1 = false :=
  ⟨rfl, rfl, rfl⟩

/-! ## Claim theorems for the project resolver -/

/-- Claim C2, counterexample to the claim as stated: with
`GOOGLE_CLOUD_PROJECT` explicitly set to `explicit-project`, a
`loadCodeAssist` response carrying `cloudaicompanionProject:
"remote-project"` makes the resolver return the remote id
(src/setup.ts, lines 217-219 assign it unconditionally) — the remotely
discovered id does replace the explicitly configured one. -/
theorem setupUserProject_remote_overrides_explicit :
    setupUserProject (some "explicit-project") none
        (.ok ⟨some "remote-project", false⟩) (.ok none)
      = .ok "remote-project"
    ∧ ("remote-project" : String) ≠ "explicit-project" :=
  ⟨rfl, by decide⟩

/-- Claim C2, amended: the precedence explicit configuration > cached
config file governs only the seed of the resolution — a cached id is
consulted only when no explicit id is configured, and the explicit id is
the one resolved when remote discovery returns no id and no onboarding is
required — but a (non-empty) remotely discovered id always replaces the
explicitly configured or cached seed. -/
theorem setupUserProject_precedence (ob : Except String (Option String)) :
    (∀ p : String, p ≠ "" → ∀ conf : Option ConfigJson,
        setupUserProject (some p) conf (.ok ⟨none, false⟩) ob = .ok p)
    ∧ (∀ q : String, q ≠ "" → ∀ env : Option String, truthyOpt env = false →
        setupUserProject env (some ⟨some q⟩) (.ok ⟨none, false⟩) ob = .ok q)
    ∧ (∀ r : String, r ≠ "" → ∀ (env : Option String) (conf : Option ConfigJson),
        setupUserProject env conf (.ok ⟨some r, false⟩) ob = .ok r) := by
  refine ⟨?_, ?_, ?_⟩
  · intro p hp conf
    cases conf with
    | none => simp [setupUserProject, truthyOpt, hp]
    | some cf => simp [setupUserProject, truthyOpt, hp]
  · intro q hq env henv
    have h1 : truthyOpt (some q) = true := by simp [truthyOpt, hq]
    simp [setupUserProject, h1, henv, hq,
      show truthyOpt none = false from rfl]
  · intro r hr env conf
    cases conf with
    | none => simp [setupUserProject, truthyOpt, hr]
    | some cf => simp [setupUserProject, truthyOpt, hr]

/-- Witness for claim C2 (amended): explicit id `proj-a` beats cached
`cached-b` and survives an empty discovery; the cache is used when the
environment is unset; a discovered `remote-c` overrides both. -/
theorem setupUserProject_precedence_witness :
    ("proj-a" : String) ≠ ""
    ∧ setupUserProject (some "proj-a") (some ⟨some "cached-b"⟩)
        (.ok ⟨none, false⟩) (.ok none) = .ok "proj-a"
    ∧ setupUserProject none (some ⟨some "cached-b"⟩)
        (.ok ⟨none, false⟩) (.ok none) = .ok "cached-b"
    ∧ setupUserProject (some "proj-a") (some ⟨some "cached-b"⟩)
        (.ok ⟨some "remote-c", false⟩) (.ok none) = .ok "remote-c" :=
  ⟨by decide,
    (setupUserProject_precedence (.ok none)).1 "proj-a" (by decide) (some ⟨some "cached-b"⟩),
    (setupUserProject_precedence (.ok none)).2.1 "cached-b" (by decide) none rfl,
    (setupUserProject_precedence (.ok none)).2.2 "remote-c" (by decide)
      (some "proj-a") (some ⟨some "cached-b"⟩)⟩

/-! ## Claim theorems for the search handler -/

theorem initializeGeminiClient_events (env : Env) (o : Except String Unit)
    (s : Except String String) :
    NetEvent.codeAssistSearch ∉ (initializeGeminiClient env o s).1
    ∧ NetEvent.genAiSearch ∉ (initializeGeminiClient env o s).1 := by
  cases o <;> cases s <;>
    simp only [initializeGeminiClient] <;> split_ifs <;> simp

theorem lazyInit_no_search_events (st : ClientState) (env : Env)
    (o : Except String Unit) (s : Except String String) :
    NetEvent.codeAssistSearch ∉ (lazyInit st env o s).1
    ∧ NetEvent.genAiSearch ∉ (lazyInit st env o s).1 := by
  unfold lazyInit
  split
  · exact initializeGeminiClient_events env o s
  · simp

/-- Claim C1, counterexample to the claim as stated: with no client
initialized and OAuth selected, the whitespace-only query `" "` still
triggers the lazy initialization first — `getOauthClient` and
`setupUserProject`, both network-reaching, run before the emptiness check
returns the empty-query error, so the validation does not happen before
every network call. -/
theorem handleWebSearch_initializes_before_validation :
    handleWebSearch ⟨false, false⟩ ⟨none, none, true⟩ (.ok ()) (.ok "proj-id")
        (.error "unreached") " "
      = ([.getOauthClientCall, .setupUserProjectCall],
          ⟨"Error: The query parameter cannot be empty.", true⟩)
    ∧ ([NetEvent.getOauthClientCall, NetEvent.setupUserProjectCall] : List NetEvent) ≠ [] := by
  exact ⟨by decide, by decide⟩

/-- Claim C1, amended: an empty or whitespace-only query always yields
the empty-query error and never reaches the search endpoint — but only
after the lazy client initialization (which in the OAuth path performs
network calls) has already run: the handler's events are exactly the
initialization's, and neither search event ever occurs. -/
theorem handleWebSearch_empty_query (st : ClientState) (env : Env)
    (oauthResult : Except String Unit) (setupResult : Except String String)
    (searchResult : Except String SearchResponse) (query : String)
    (hq : jsTrim query = "") (st' : ClientState)
    (hok : (lazyInit st env oauthResult setupResult).2 = .ok st') :
    handleWebSearch st env oauthResult setupResult searchResult query
      = ((lazyInit st env oauthResult setupResult).1,
          ⟨"Error: The query parameter cannot be empty.", true⟩)
    ∧ NetEvent.codeAssistSearch
        ∉ (handleWebSearch st env oauthResult setupResult searchResult query).1
    ∧ NetEvent.genAiSearch
        ∉ (handleWebSearch st env oauthResult setupResult searchResult query).1 := by
  have hmain : handleWebSearch st env oauthResult setupResult searchResult query
      = ((lazyInit st env oauthResult setupResult).1,
          ⟨"Error: The query parameter cannot be empty.", true⟩) := by
    unfold handleWebSearch
    rw [hok]
    simp [hq]
  refine ⟨hmain, ?_, ?_⟩
  · rw [hmain]
    exact (lazyInit_no_search_events st env oauthResult setupResult).1
  · rw [hmain]
    exact (lazyInit_no_search_events st env oauthResult setupResult).2

/-- Witness for claim C1 (amended): the whitespace query `"   "` on the
API-key path (where initialization is local) produces exactly the
empty-query error and no network event at all. -/
theorem handleWebSearch_empty_query_witness :
    jsTrim "   " = ""
    ∧ (lazyInit ⟨false, false⟩ ⟨some "api-key", none, false⟩ (.ok ()) (.ok "proj")).2
        = .ok ⟨true, false⟩
    ∧ handleWebSearch ⟨false, false⟩ ⟨some "api-key", none, false⟩ (.ok ())
        (.ok "proj") (.error "unreached") "   "
      = ((lazyInit ⟨false, false⟩ ⟨some "api-key", none, false⟩ (.ok ()) (.ok "proj")).1,
          ⟨"Error: The query parameter cannot be empty.", true⟩)
    ∧ NetEvent.codeAssistSearch
        ∉ (handleWebSearch ⟨false, false⟩ ⟨some "api-key", none, false⟩ (.ok ())
            (.ok "proj") (.error "unreached") "   ").1
    ∧ NetEvent.genAiSearch
        ∉ (handleWebSearch ⟨false, false⟩ ⟨some "api-key", none, false⟩ (.ok ())
            (.ok "proj") (.error "unreached") "   ").1 :=
  ⟨by decide, rfl,
    (handleWebSearch_empty_query ⟨false, false⟩ ⟨some "api-key", none, false⟩ (.ok ())
      (.ok "proj") (.error "unreached") "   " (by decide) ⟨true, false⟩ rfl).1,
    (handleWebSearch_empty_query ⟨false, false⟩ ⟨some "api-key", none, false⟩ (.ok ())
      (.ok "proj") (.error "unreached") "   " (by decide) ⟨true, false⟩ rfl).2.1,
    (handleWebSearch_empty_query ⟨false, false⟩ ⟨some "api-key", none, false⟩ (.ok ())
      (.ok "proj") (.error "unreached") "   " (by decide) ⟨true, false⟩ rfl).2.2⟩
